import Mathlib

/-!
Verification of the Coddle CDL-grids trivia game
(`pages/index.tsx`).

The source is a single React page.  We embed its logic shallowly:

* `Player` mirrors the `Player` interface.
* `isCorrectMatch` mirrors the condition evaluator (the nine-rule
  if-chain); a JS player reference may be `null`, so the player
  argument is an `Option Player`, and the JS falsy test `!condition`
  on a string is the test for the empty string.
* `handleGuess` mirrors `GuessCell.handleGuess` as a pure function
  from (player list, row label, column label, guess text, current
  cell state, current strike count) to (new cell state, new strike
  count).
* `deriveLabels` mirrors the `rows`/`cols` slices in `Home`.
* `AppState` and the step relation `Step` mirror the session state
  machine: difficulty selection, the two asynchronous fetches,
  per-cell guess submission (only enabled when the grid is rendered,
  i.e. a mode is set, the strike count is below 3 and the cell is
  still unresolved — exactly the conditions under which the input
  and button of a `GuessCell` exist in the DOM), and `resetGame`
  (unmounting the grid destroys all `GuessCell` component state).

Numbers: `kd` is a JS number compared only against the literal 1.1;
we model it as a rational.
-/

namespace Coddle

/-- Mirrors the `Player` interface of the source. -/
structure Player where
  name : String
  image : String
  teams : List String
  roles : List String
  kd : ℚ
  maps : List String
deriving DecidableEq, Repr

/-- The condition evaluator `isCorrectMatch(p, condition)`.
`!p` is modelled by the `none` case, `!condition` by the empty-string
test, and each JS `includes` by `List.contains`. -/
def isCorrectMatch (p? : Option Player) (condition : String) : Bool :=
  match p? with
  | none => false
  | some p =>
    if condition = "" then false
    else if condition = "Played for OpTic" then p.teams.contains "OpTic"
    else if condition = "Played for FaZe" then p.teams.contains "FaZe"
    else if condition = "Used AR on Fortress" then
      p.roles.contains "AR" && p.maps.contains "Fortress"
    else if condition = "K/D over 1.1" then decide ((1.1 : ℚ) < p.kd)
    else if condition = "Played SMG on Embassy" then
      p.roles.contains "SMG" && p.maps.contains "Embassy"
    else if condition = "Played on Hotel" then p.maps.contains "Hotel"
    else if condition = "Flex Role on Expo" then
      p.roles.contains "Flex" && p.maps.contains "Expo"
    else if condition = "Used SMG for NYSL" then
      p.teams.contains "NYSL" && p.roles.contains "SMG"
    else if condition = "Played with Scump" then
      p.teams.contains "OpTic" && (p.name != "Scump")
    else false

/-- The nine condition labels the evaluator recognizes. -/
def knownConditions : List String :=
  ["Played for OpTic", "Played for FaZe", "Used AR on Fortress",
   "K/D over 1.1", "Played SMG on Embassy", "Played on Hotel",
   "Flex Role on Expo", "Used SMG for NYSL", "Played with Scump"]

/-- A sample player used to instantiate universally quantified theorems. -/
def samplePlayer : Player :=
  { name := "Dashy", image := "dashy.png", teams := ["OpTic"],
    roles := ["AR"], kd := ⟨6, 5, by decide, by decide⟩,
    maps := ["Fortress", "Hotel"] }

/-- The two difficulty values (`'easy' | 'hard'`). -/
inductive Mode where
  | easy : Mode
  | hard : Mode
deriving DecidableEq, Repr

/-- `const size = mode === 'easy' ? 3 : 5` in `Home`; `mode` there is
`'easy' | 'hard' | null`, hence the `Option`. -/
def gridSize (mode : Option Mode) : Nat :=
  if mode = some Mode.easy then 3 else 5

/-- The `rows`/`cols` derivation in `Home`:
`rows = categories.slice(0, size)` and
`cols = categories.slice(size, size * 2)`. -/
def deriveLabels (categories : List String) (mode : Option Mode) :
    List String × List String :=
  (categories.take (gridSize mode),
   (categories.drop (gridSize mode)).take (gridSize mode))

/-- A `GuessCell`'s state: `player` is null and no resolution yet, or a
resolved player together with the `result === 'correct'` flag. -/
inductive CellState where
  | empty : CellState
  | resolved : Player → Bool → CellState
deriving DecidableEq, Repr

/-- JS `String.prototype.toLowerCase`, as a character map. -/
def lowercase (s : String) : String := ⟨s.data.map Char.toLower⟩

/-- `players.find(p => p.name.toLowerCase() === guess.toLowerCase())`. -/
def findPlayer (players : List Player) (guess : String) : Option Player :=
  players.find? (fun p => lowercase p.name == lowercase guess)

/-- `GuessCell.handleGuess` as a pure function: given the player list,
the cell's row and column labels, the guess text, the current cell
state and strike count, return the new cell state and strike count.
No match leaves everything unchanged (`if (!found) return`); a match
resolves the cell and calls `onStrike()` exactly when the resolution
is wrong. -/
def handleGuess (players : List Player) (row col : String) (guess : String)
    (cell : CellState) (strikes : Nat) : CellState × Nat :=
  match findPlayer players guess with
  | none => (cell, strikes)
  | some found =>
    let valid := isCorrectMatch (some found) row && isCorrectMatch (some found) col
    (CellState.resolved found valid, if valid then strikes else strikes + 1)

/-- The state held by `Home` (the fetched lists, the mode and the
strike count) together with the per-cell `GuessCell` component state,
indexed by (row, column). -/
structure AppState where
  players : List Player
  categories : List String
  mode : Option Mode
  strikes : Nat
  cells : Nat → Nat → CellState

/-- What `Home` renders: the difficulty-selection screen when `mode`
is null, the game-over message when `strikes >= 3`, else the grid. -/
inductive View where
  | difficultySelect : View
  | grid : View
  | gameOver : View
deriving DecidableEq, Repr

def viewOf (s : AppState) : View :=
  match s.mode with
  | none => View.difficultySelect
  | some _ => if 3 ≤ s.strikes then View.gameOver else View.grid

/-- `resetGame`: `setMode(null); setStrikes(0)`.  Setting `mode` to
null unmounts the grid, destroying every `GuessCell`'s component
state, so the cells revert to empty. -/
def resetGame (s : AppState) : AppState :=
  { s with mode := none, strikes := 0, cells := fun _ _ => CellState.empty }

/-- Clicking a difficulty button: `setMode(m)`.  The fetches it
triggers complete later, as separate events. -/
def selectDifficulty (s : AppState) (m : Mode) : AppState :=
  { s with mode := some m }

/-- The row labels of the rendered grid. -/
def rowsOf (s : AppState) : List String := (deriveLabels s.categories s.mode).1

/-- The column labels of the rendered grid. -/
def colsOf (s : AppState) : List String := (deriveLabels s.categories s.mode).2

/-- Submitting a guess in cell (i, j): the cell's labels are
`rows[i]` and `cols[j]`, and `handleGuess` updates that cell and the
strike count. -/
def applyGuess (s : AppState) (i j : Nat) (g : String) : AppState :=
  let r := handleGuess s.players ((rowsOf s).getD i "") ((colsOf s).getD j "")
    g (s.cells i j) s.strikes
  { s with
    cells := fun a b => if a = i ∧ b = j then r.1 else s.cells a b,
    strikes := r.2 }

/-- One user-visible event of the session.  A guess can only be
submitted while the grid is rendered (a mode is chosen and strikes are
below 3) and while the target cell still shows its input and button
(it is unresolved and within the rendered grid). -/
inductive Step : AppState → AppState → Prop where
  | selectMode (s : AppState) (m : Mode) (h : s.mode = none) :
      Step s (selectDifficulty s m)
  | playersFetched (s : AppState) (ps : List Player) (h : s.mode ≠ none) :
      Step s { s with players := ps }
  | categoriesFetched (s : AppState) (cs : List String) (h : s.mode ≠ none) :
      Step s { s with categories := cs }
  | guess (s : AppState) (i j : Nat) (g : String) (hm : s.mode ≠ none)
      (hs : s.strikes < 3) (hi : i < (rowsOf s).length)
      (hj : j < (colsOf s).length) (hc : s.cells i j = CellState.empty) :
      Step s (applyGuess s i j g)
  | reset (s : AppState) (h : s.mode ≠ none) :
      Step s (resetGame s)

/-- What `GameGrid` renders: the column-header cells, then, for each
row label, its header cell followed by one `GuessCell` per column,
each keyed by its (row label, column label) pair. -/
structure RenderedGrid where
  colHeaders : List String
  gridRows : List (String × List (String × String))
deriving DecidableEq, Repr

def renderGrid (rows cols : List String) : RenderedGrid :=
  ⟨cols, rows.map (fun r => (r, cols.map (fun c => (r, c))))⟩

/-- The state before any interaction: empty lists, no mode, no
strikes, every cell empty. -/
def initState : AppState :=
  { players := [], categories := [], mode := none, strikes := 0,
    cells := fun _ _ => CellState.empty }

/-- States the session can actually be in. -/
def Reachable (s : AppState) : Prop :=
  Relation.ReflTransGen Step initState s

/-- The session invariant: strikes never exceed 3, and on the
difficulty-selection screen (no mode) the strike count is 0. -/
def Inv (s : AppState) : Prop :=
  s.strikes ≤ 3 ∧ (s.mode = none → s.strikes = 0)

/-- A concrete session state with every cell resolved, used to
instantiate the terminal-cell theorem. -/
def resolvedState : AppState :=
  { players := [], categories := [], mode := some Mode.easy, strikes := 0,
    cells := fun _ _ => CellState.resolved samplePlayer true }

end Coddle

namespace Coddle

/-- C1: for every player and each of the nine known labels, the
evaluator returns true exactly when the player's attributes satisfy
the documented rule for that label; "Played with Scump" additionally
excludes the player named "Scump". -/
theorem isCorrectMatch_nine_rules (p : Player) :
    (isCorrectMatch (some p) "Played for OpTic" = true ↔ "OpTic" ∈ p.teams) ∧
    (isCorrectMatch (some p) "Played for FaZe" = true ↔ "FaZe" ∈ p.teams) ∧
    (isCorrectMatch (some p) "Used AR on Fortress" = true ↔
      "AR" ∈ p.roles ∧ "Fortress" ∈ p.maps) ∧
    (isCorrectMatch (some p) "K/D over 1.1" = true ↔ (1.1 : ℚ) < p.kd) ∧
    (isCorrectMatch (some p) "Played SMG on Embassy" = true ↔
      "SMG" ∈ p.roles ∧ "Embassy" ∈ p.maps) ∧
    (isCorrectMatch (some p) "Played on Hotel" = true ↔ "Hotel" ∈ p.maps) ∧
    (isCorrectMatch (some p) "Flex Role on Expo" = true ↔
      "Flex" ∈ p.roles ∧ "Expo" ∈ p.maps) ∧
    (isCorrectMatch (some p) "Used SMG for NYSL" = true ↔
      "NYSL" ∈ p.teams ∧ "SMG" ∈ p.roles) ∧
    (isCorrectMatch (some p) "Played with Scump" = true ↔
      "OpTic" ∈ p.teams ∧ p.name ≠ "Scump") := by
  refine ⟨?_, ?_, ?_, ?_, ?_, ?_, ?_, ?_, ?_⟩ <;>
    simp [isCorrectMatch, List.elem_iff]

/-- C4: the evaluator is total and fails closed: it always returns a
boolean, and returns false for a null player, for the empty label, and
for any label outside the nine known condition phrases. -/
theorem isCorrectMatch_fails_closed (p? : Option Player) (c : String) :
    (isCorrectMatch p? c = true ∨ isCorrectMatch p? c = false) ∧
    (p? = none → isCorrectMatch p? c = false) ∧
    (c = "" → isCorrectMatch p? c = false) ∧
    (c ∉ knownConditions → isCorrectMatch p? c = false) := by
  refine ⟨by cases h : isCorrectMatch p? c <;> simp, ?_, ?_, ?_⟩
  · rintro rfl; rfl
  · rintro rfl; cases p? <;> rfl
  · intro h
    cases p? with
    | none => rfl
    | some q =>
      simp only [knownConditions, List.mem_cons, List.not_mem_nil, or_false,
        not_or] at h
      obtain ⟨h1, h2, h3, h4, h5, h6, h7, h8, h9⟩ := h
      by_cases hc : c = ""
      · simp [isCorrectMatch, hc]
      · simp [isCorrectMatch, hc, h1, h2, h3, h4, h5, h6, h7, h8, h9]

/-- C4 witness: concrete evaluation of the fails-closed theorem at a
label outside the known set. -/
theorem isCorrectMatch_fails_closed_witness :
    isCorrectMatch (some samplePlayer) "Won a ring" = false :=
  (isCorrectMatch_fails_closed (some samplePlayer) "Won a ring").2.2.2
    (by decide)

/-- C2: when the guess text matches a player case-insensitively, the
cell resolves to that player; it resolves correct exactly when the
player satisfies both the row and the column condition, in which case
the strike count is unchanged, and otherwise it resolves wrong and the
strike count increases by exactly 1. -/
theorem handleGuess_resolves (players : List Player) (row col g : String)
    (strikes : Nat) (p : Player) (hf : findPlayer players g = some p) :
    ∃ b : Bool,
      (handleGuess players row col g CellState.empty strikes).1 =
        CellState.resolved p b ∧
      (b = true ↔
        (isCorrectMatch (some p) row = true ∧ isCorrectMatch (some p) col = true)) ∧
      (b = true →
        (handleGuess players row col g CellState.empty strikes).2 = strikes) ∧
      (b = false →
        (handleGuess players row col g CellState.empty strikes).2 = strikes + 1) := by
  refine ⟨isCorrectMatch (some p) row && isCorrectMatch (some p) col, ?_⟩
  simp only [handleGuess, hf]
  cases hr : isCorrectMatch (some p) row <;>
    cases hc : isCorrectMatch (some p) col <;> simp

/-- C2 witness: a concrete correct guess ("dASHy" matches "Dashy"
case-insensitively, and Dashy satisfies both conditions). -/
theorem handleGuess_resolves_witness :
    ∃ b : Bool,
      (handleGuess [samplePlayer] "Played for OpTic" "Played on Hotel"
          "dASHy" CellState.empty 0).1 = CellState.resolved samplePlayer b ∧
      (b = true ↔
        (isCorrectMatch (some samplePlayer) "Played for OpTic" = true ∧
         isCorrectMatch (some samplePlayer) "Played on Hotel" = true)) ∧
      (b = true →
        (handleGuess [samplePlayer] "Played for OpTic" "Played on Hotel"
          "dASHy" CellState.empty 0).2 = 0) ∧
      (b = false →
        (handleGuess [samplePlayer] "Played for OpTic" "Played on Hotel"
          "dASHy" CellState.empty 0).2 = 0 + 1) :=
  handleGuess_resolves [samplePlayer] "Played for OpTic" "Played on Hotel"
    "dASHy" 0 samplePlayer (by decide)

/-- C6: when the guess text matches no player case-insensitively, the
submission is silently ignored: the cell state and the strike count
are returned unchanged. -/
theorem handleGuess_no_match (players : List Player) (row col g : String)
    (cell : CellState) (strikes : Nat) (hf : findPlayer players g = none) :
    handleGuess players row col g cell strikes = (cell, strikes) := by
  simp [handleGuess, hf]

/-- C6 witness: a concrete unmatched guess leaves the empty cell and
the strike count alone. -/
theorem handleGuess_no_match_witness :
    handleGuess [samplePlayer] "Played for OpTic" "Played on Hotel"
      "Shotzzy" CellState.empty 2 = (CellState.empty, 2) :=
  handleGuess_no_match [samplePlayer] "Played for OpTic" "Played on Hotel"
    "Shotzzy" CellState.empty 2 (by decide)

/-- C5: label derivation is a deterministic slice: with N the grid
size (3 for easy, 5 for hard), the row labels are exactly the first N
categories and the column labels are exactly categories N..2N-1; with
8 categories and easy difficulty the rows are indices 0..2, the
columns indices 3..5, and the elements at indices 6 and 7 appear in
neither list. -/
theorem deriveLabels_slice :
    (∀ (cats : List String) (mode : Option Mode) (i : Nat),
      ((deriveLabels cats mode).1)[i]? =
        if i < gridSize mode then cats[i]? else none) ∧
    (∀ (cats : List String) (mode : Option Mode) (i : Nat),
      ((deriveLabels cats mode).2)[i]? =
        if i < gridSize mode then cats[gridSize mode + i]? else none) ∧
    gridSize (some Mode.easy) = 3 ∧ gridSize (some Mode.hard) = 5 ∧
    (∀ a b c d e f g h : String,
      deriveLabels [a, b, c, d, e, f, g, h] (some Mode.easy) =
        ([a, b, c], [d, e, f])) := by
  refine ⟨?_, ?_, rfl, rfl, fun a b c d e f g h => rfl⟩
  · intro cats mode i
    simp [deriveLabels, List.getElem?_take]
  · intro cats mode i
    simp [deriveLabels, List.getElem?_take, List.getElem?_drop]

/-- C7: when fewer than 2N categories are fetched, derivation and
rendering still go through: rows and columns together are exactly the
fetched categories (nothing invented, the missing labels simply
absent), the column list is shorter than N, and the grid renders one
row per row label with one cell per column label. -/
theorem short_categories (cats : List String) (mode : Option Mode)
    (h : cats.length < 2 * gridSize mode) :
    (deriveLabels cats mode).1 ++ (deriveLabels cats mode).2 = cats ∧
    (deriveLabels cats mode).1.length = min (gridSize mode) cats.length ∧
    (deriveLabels cats mode).2.length =
      cats.length - (deriveLabels cats mode).1.length ∧
    (deriveLabels cats mode).2.length < gridSize mode ∧
    (renderGrid (deriveLabels cats mode).1 (deriveLabels cats mode).2).gridRows.length =
      (deriveLabels cats mode).1.length ∧
    (∀ r ∈ (renderGrid (deriveLabels cats mode).1 (deriveLabels cats mode).2).gridRows,
      r.2.length = (deriveLabels cats mode).2.length) := by
  refine ⟨?_, ?_, ?_, ?_, ?_, ?_⟩
  · rw [deriveLabels, ← List.take_add]
    exact List.take_of_length_le (by omega)
  · simp [deriveLabels]
  · simp only [deriveLabels, List.length_take, List.length_drop]
    omega
  · simp only [deriveLabels, List.length_take, List.length_drop]
    omega
  · simp [renderGrid]
  · intro r hr
    simp only [renderGrid, List.mem_map] at hr
    obtain ⟨x, _, rfl⟩ := hr
    simp

/-- The strike count returned by `handleGuess` never grows by more
than one, and never shrinks. -/
lemma handleGuess_strikes_bound (players : List Player) (row col g : String)
    (cell : CellState) (strikes : Nat) :
    strikes ≤ (handleGuess players row col g cell strikes).2 ∧
    (handleGuess players row col g cell strikes).2 ≤ strikes + 1 := by
  unfold handleGuess
  cases findPlayer players g <;> simp
  split <;> omega

lemma inv_init : Inv initState := ⟨by simp [initState], fun _ => rfl⟩

lemma inv_step {s s' : AppState} (h : Inv s) (hstep : Step s s') : Inv s' := by
  obtain ⟨h3, h0⟩ := h
  cases hstep with
  | selectMode m hm =>
    exact ⟨by simpa [selectDifficulty] using h3, by simp [selectDifficulty]⟩
  | playersFetched ps hm => exact ⟨h3, h0⟩
  | categoriesFetched cs hm => exact ⟨h3, h0⟩
  | guess i j g hm hs hi hj hc =>
    refine ⟨?_, ?_⟩
    · have := (handleGuess_strikes_bound s.players ((rowsOf s).getD i "")
        ((colsOf s).getD j "") g (s.cells i j) s.strikes).2
      simp only [applyGuess]
      omega
    · intro hnone
      exact absurd hnone hm
  | reset hm => exact ⟨by simp [resetGame], fun _ => rfl⟩

lemma reachable_inv {s : AppState} (h : Reachable s) : Inv s := by
  induction h with
  | refl => exact inv_init
  | tail _ hstep ih => exact inv_step ih hstep

/-- C7 witness: 4 categories in easy mode (N = 3) yield 3 rows and a
single column without error. -/
theorem short_categories_witness :
    (deriveLabels ["A", "B", "C", "D"] (some Mode.easy)).1 ++
      (deriveLabels ["A", "B", "C", "D"] (some Mode.easy)).2 = ["A", "B", "C", "D"] ∧
    (deriveLabels ["A", "B", "C", "D"] (some Mode.easy)).1.length =
      min (gridSize (some Mode.easy)) 4 ∧
    (deriveLabels ["A", "B", "C", "D"] (some Mode.easy)).2.length =
      4 - (deriveLabels ["A", "B", "C", "D"] (some Mode.easy)).1.length ∧
    (deriveLabels ["A", "B", "C", "D"] (some Mode.easy)).2.length <
      gridSize (some Mode.easy) ∧
    (renderGrid (deriveLabels ["A", "B", "C", "D"] (some Mode.easy)).1
        (deriveLabels ["A", "B", "C", "D"] (some Mode.easy)).2).gridRows.length =
      (deriveLabels ["A", "B", "C", "D"] (some Mode.easy)).1.length ∧
    (∀ r ∈ (renderGrid (deriveLabels ["A", "B", "C", "D"] (some Mode.easy)).1
        (deriveLabels ["A", "B", "C", "D"] (some Mode.easy)).2).gridRows,
      r.2.length = (deriveLabels ["A", "B", "C", "D"] (some Mode.easy)).2.length) :=
  short_categories ["A", "B", "C", "D"] (some Mode.easy) (by decide)

/-- C3: in every reachable state the strike count never exceeds 3,
and once it reaches 3 the session is terminal: the rendered view is
the end-of-game message (the grid is hidden), and every further event
either leaves the strike count and every cell untouched (the
asynchronous fetches) or is the reset that returns to the
difficulty-selection screen — in particular no further strike can be
registered and no guess can resolve. -/
theorem strikes_terminal (s : AppState) (h : Reachable s) :
    s.strikes ≤ 3 ∧
    (s.strikes = 3 → viewOf s = View.gameOver ∧
      ∀ s', Step s s' →
        (s'.strikes = s.strikes ∧ ∀ i j, s'.cells i j = s.cells i j) ∨
        s'.mode = none) := by
  obtain ⟨h3, h0⟩ := reachable_inv h
  refine ⟨h3, fun hs3 => ⟨?_, ?_⟩⟩
  · have hm : s.mode ≠ none := fun hn => by have := h0 hn; omega
    obtain ⟨m, hm'⟩ := Option.ne_none_iff_exists'.mp hm
    simp [viewOf, hm', hs3]
  · intro s' hstep
    cases hstep with
    | selectMode m hm =>
      have := h0 hm
      omega
    | playersFetched ps hm => exact Or.inl ⟨rfl, fun i j => rfl⟩
    | categoriesFetched cs hm => exact Or.inl ⟨rfl, fun i j => rfl⟩
    | guess i j g hm hg hi hj hc => omega
    | reset hm => exact Or.inr rfl

/-- C3 witness: the theorem applied to the initial state, which is
reachable by the empty sequence of events. -/
theorem strikes_terminal_witness :
    initState.strikes ≤ 3 ∧
    (initState.strikes = 3 → viewOf initState = View.gameOver ∧
      ∀ s', Step initState s' →
        (s'.strikes = initState.strikes ∧
          ∀ i j, s'.cells i j = initState.cells i j) ∨
        s'.mode = none) :=
  strikes_terminal initState Relation.ReflTransGen.refl

/-- C8: from any reachable state, `resetGame` zeroes the strike
count, unsets the difficulty, discards every cell resolution (the
grid unmounts), and the application shows the difficulty-selection
screen; while a mode is set, reset is an available event. -/
theorem resetGame_clears (s : AppState) (hr : Reachable s) :
    (resetGame s).strikes = 0 ∧ (resetGame s).mode = none ∧
    (∀ i j, (resetGame s).cells i j = CellState.empty) ∧
    viewOf (resetGame s) = View.difficultySelect ∧
    (s.mode ≠ none → Step s (resetGame s)) :=
  ⟨rfl, rfl, fun _ _ => rfl, rfl, fun hm => Step.reset s hm⟩

/-- C8 witness: the theorem applied to the initial state. -/
theorem resetGame_clears_witness :
    (resetGame initState).strikes = 0 ∧ (resetGame initState).mode = none ∧
    (∀ i j, (resetGame initState).cells i j = CellState.empty) ∧
    viewOf (resetGame initState) = View.difficultySelect ∧
    (initState.mode ≠ none → Step initState (resetGame initState)) :=
  resetGame_clears initState Relation.ReflTransGen.refl

/-- C9: a resolved cell is terminal: no event of the session changes
its resolved player or its outcome — the only escape is the reset
event, which ends the session (mode becomes unset). -/
theorem resolved_cell_terminal (s s' : AppState) (i j : Nat) (p : Player)
    (b : Bool) (hstep : Step s s')
    (hres : s.cells i j = CellState.resolved p b) :
    s'.cells i j = CellState.resolved p b ∨ s'.mode = none := by
  cases hstep with
  | selectMode m hm => exact Or.inl hres
  | playersFetched ps hm => exact Or.inl hres
  | categoriesFetched cs hm => exact Or.inl hres
  | guess a c g hm hg hi hj hc =>
    left
    show (if i = a ∧ j = c then _ else s.cells i j) = _
    by_cases hij : i = a ∧ j = c
    · obtain ⟨rfl, rfl⟩ := hij
      rw [hres] at hc
      exact absurd hc (by simp)
    · simp [hij, hres]
  | reset hm => exact Or.inr rfl

/-- C9 witness: a fetch event arriving after cell (0,0) resolved
leaves that cell's resolution intact. -/
theorem resolved_cell_terminal_witness :
    ({ resolvedState with players := [samplePlayer] } : AppState).cells 0 0 =
        CellState.resolved samplePlayer true ∨
      ({ resolvedState with players := [samplePlayer] } : AppState).mode = none :=
  resolved_cell_terminal resolvedState
    { resolvedState with players := [samplePlayer] } 0 0 samplePlayer true
    (Step.playersFetched resolvedState [samplePlayer] (by decide)) rfl

/-- C10: `resetGame` touches only the mode, the strike count and the
unmounted cells: the fetched player and category lists are unchanged,
so selecting a new difficulty right after a reset (before the
re-triggered fetches complete) still sees the old lists. -/
theorem resetGame_frame (s : AppState) (m : Mode) :
    (resetGame s).players = s.players ∧
    (resetGame s).categories = s.categories ∧
    (selectDifficulty (resetGame s) m).players = s.players ∧
    (selectDifficulty (resetGame s) m).categories = s.categories ∧
    (selectDifficulty (resetGame s) m).mode = some m :=
  ⟨rfl, rfl, rfl, rfl, rfl⟩

end Coddle
